import Mathlib

/-!
Verification development for the RapidRAW-Mobile RAW development pipeline.

The Rust sources are shallowly embedded in Lean:
machine floating-point values are modelled as exact rationals (and, for the
chroma-denoise filter which takes a square root, as real numbers); fallible
code is modelled with Except; per-pixel loops become per-pixel functions.

Module map:
  - LensCorrection : src-tauri/src/lens_correction.rs (Lens::get_distortion_params)
  - Highlight      : src-tauri/src/raw_processing.rs (develop_internal, per-pixel part)
  - Chroma         : pwa/wasm/src/core/image_processing.rs (remove_raw_artifacts_and_enhance)
  - Develop        : src-tauri/rawler/src/imgop/develop.rs (RawDevelop::develop_intermediate)
-/

namespace LensCorrection

/-- Distortion calibration record, from lens_correction.rs (struct Distortion).
Floating-point attribute values are modelled as rationals. -/
structure Distortion where
  model : String
  focal : ℚ
  real_focal : Option ℚ
  k1 : Option ℚ
  k2 : Option ℚ
  k3 : Option ℚ
  a : Option ℚ
  b : Option ℚ
  c : Option ℚ
deriving DecidableEq

/-- TCA calibration record, from lens_correction.rs (struct Tca). -/
structure Tca where
  model : String
  focal : ℚ
  vr : Option ℚ
  vb : Option ℚ
  cr : Option ℚ
  cb : Option ℚ
  br : Option ℚ
  bb : Option ℚ
deriving DecidableEq

/-- Vignetting calibration record, from lens_correction.rs (struct Vignetting). -/
structure Vignetting where
  model : String
  focal : ℚ
  aperture : ℚ
  distance : Option ℚ
  k1 : Option ℚ
  k2 : Option ℚ
  k3 : Option ℚ
deriving DecidableEq

/-- One calibration element, from lens_correction.rs (enum CalibrationElement). -/
inductive CalibrationElement where
  | distortion (d : Distortion)
  | tca (t : Tca)
  | vignetting (v : Vignetting)
deriving DecidableEq

/-- Calibration block, from lens_correction.rs (struct Calibration). -/
structure Calibration where
  elements : List CalibrationElement
deriving DecidableEq

/-- Lens record, from lens_correction.rs (struct Lens).  Identification
fields (maker, model, mount, focal range and so on) are omitted: the
resolver get_distortion_params reads only the calibration block. -/
structure Lens where
  cropfactor : Option ℚ
  calibration : Option Calibration
deriving DecidableEq

/-- Resolved output record, from lens_correction.rs (struct LensDistortionParams). -/
structure LensDistortionParams where
  k1 : ℚ
  k2 : ℚ
  k3 : ℚ
  model : ℕ
  tca_vr : ℚ
  tca_vb : ℚ
  vig_k1 : ℚ
  vig_k2 : ℚ
  vig_k3 : ℚ
deriving DecidableEq

/-- Distortion part of the resolver result: k1, k2, k3 plus the model tag. -/
structure DistParams where
  k1 : ℚ
  k2 : ℚ
  k3 : ℚ
  model : ℕ
deriving DecidableEq

/-- Projection used to collect the distortion elements (the first filter_map
in get_distortion_params). -/
def asDistortion : CalibrationElement → Option Distortion
  | .distortion d => some d
  | _ => none

/-- Projection used to collect the TCA elements. -/
def asTca : CalibrationElement → Option Tca
  | .tca t => some t
  | _ => none

/-- Projection used to collect the vignetting elements. -/
def asVignetting : CalibrationElement → Option Vignetting
  | .vignetting v => some v
  | _ => none

/-- extract_dist_params from lens_correction.rs: poly3 and poly5 entries carry
k1, k2, k3 with model tag 0; ptlens entries carry a, b, c with model tag 1;
anything else is neutral with tag 0. -/
def extract_dist_params (d : Distortion) : DistParams :=
  if d.model = "poly3" ∨ d.model = "poly5" then
    ⟨d.k1.getD 0, d.k2.getD 0, d.k3.getD 0, 0⟩
  else if d.model = "ptlens" then
    ⟨d.a.getD 0, d.b.getD 0, d.c.getD 0, 1⟩
  else ⟨0, 0, 0, 0⟩

/-- extract_tca_params from lens_correction.rs. -/
def extract_tca_params (t : Tca) : ℚ × ℚ :=
  (t.vr.getD 1, t.vb.getD 1)

/-- extract_vig_params from lens_correction.rs. -/
def extract_vig_params (v : Vignetting) : ℚ × ℚ × ℚ :=
  (v.k1.getD 0, v.k2.getD 0, v.k3.getD 0)

/-- The exact-match and degenerate-span tolerance 1e-5 used by the distortion
and TCA branches of get_distortion_params. -/
def distEps : ℚ := 1 / 100000

/-- The grouping tolerance 0.01 used by the vignetting branch. -/
def vigEps : ℚ := 1 / 100

/-- Generic left-to-right scan over adjacent pairs of a list, returning the
first pair result that the step function produces, else a default.  This is
the shape of the for-loops with break in get_distortion_params. -/
def scanAdjPairs (step : α → α → Option β) (dflt : β) : List α → β
  | a :: b :: rest =>
    match step a b with
    | some r => r
    | none => scanAdjPairs step dflt (b :: rest)
  | _ => dflt

/-- Body of one iteration of the distortion interpolation loop
(lens_correction.rs lines 219-241): when the query is bracketed by the pair,
interpolate unless the span is degenerate or the model tags differ, in which
case the lower entry wins. -/
def distPairStep (f : ℚ) (d1 d2 : Distortion) : Option DistParams :=
  if d1.focal ≤ f ∧ f ≤ d2.focal then
    let p1 := extract_dist_params d1
    let p2 := extract_dist_params d2
    let range := d2.focal - d1.focal
    some (if |range| < distEps ∨ p1.model ≠ p2.model then p1
          else
            let t := (f - d1.focal) / range
            ⟨p1.k1 + t * (p2.k1 - p1.k1),
             p1.k2 + t * (p2.k2 - p1.k2),
             p1.k3 + t * (p2.k3 - p1.k3),
             p1.model⟩)
  else none

/-- Distortion block of get_distortion_params (lens_correction.rs lines
206-244): empty table gives neutral zeros; otherwise the table is sorted by
focal length, an exact match (within 1e-5) is returned directly, a query
outside the range clamps to the boundary entry, and otherwise adjacent pairs
are scanned for the bracketing pair. -/
def distPart (elements : List CalibrationElement) (f : ℚ) : DistParams :=
  match List.insertionSort (fun a b => a.focal ≤ b.focal)
      (elements.filterMap asDistortion) with
  | [] => ⟨0, 0, 0, 0⟩
  | d0 :: rest =>
    match (d0 :: rest).find? (fun d => decide (|d.focal - f| < distEps)) with
    | some e => extract_dist_params e
    | none =>
      if f < d0.focal then extract_dist_params d0
      else if (rest.getLastD d0).focal < f then
        extract_dist_params (rest.getLastD d0)
      else scanAdjPairs (distPairStep f) ⟨0, 0, 0, 0⟩ (d0 :: rest)

/-- Body of one iteration of the TCA interpolation loop (lens_correction.rs
lines 259-278). -/
def tcaPairStep (f : ℚ) (t1 t2 : Tca) : Option (ℚ × ℚ) :=
  if t1.focal ≤ f ∧ f ≤ t2.focal then
    let p1 := extract_tca_params t1
    let p2 := extract_tca_params t2
    let range := t2.focal - t1.focal
    some (if |range| < distEps then p1
          else
            let t := (f - t1.focal) / range
            (p1.1 + t * (p2.1 - p1.1), p1.2 + t * (p2.2 - p1.2)))
  else none

/-- TCA block of get_distortion_params (lens_correction.rs lines 246-281). -/
def tcaPart (elements : List CalibrationElement) (f : ℚ) : ℚ × ℚ :=
  match List.insertionSort (fun a b => a.focal ≤ b.focal)
      (elements.filterMap asTca) with
  | [] => (1, 1)
  | t0 :: rest =>
    match (t0 :: rest).find? (fun d => decide (|d.focal - f| < distEps)) with
    | some e => extract_tca_params e
    | none =>
      if f < t0.focal then extract_tca_params t0
      else if (rest.getLastD t0).focal < f then
        extract_tca_params (rest.getLastD t0)
      else scanAdjPairs (tcaPairStep f) (1, 1) (t0 :: rest)

/-- First minimal element of a list under a rational key.  This is the
behaviour of Rust Iterator::min_by, which returns the first of several
equally minimal elements. -/
def minByFirst (key : α → ℚ) : List α → Option α
  | [] => none
  | x :: xs => some (xs.foldl (fun acc y => if key y < key acc then y else acc) x)

/-- find_best_vig closure from lens_correction.rs (lines 291-304): pick the
entry whose aperture is closest to the target, then among entries within
0.01 of that aperture pick the one whose focus distance (default 1000) is
closest to the target distance. -/
def find_best_vig (ta td : ℚ) (items : List Vignetting) : ℚ × ℚ × ℚ :=
  match minByFirst (fun a => |a.aperture - ta|) items with
  | none => (0, 0, 0)
  | some bestAp =>
    let candidates := items.filter (fun x => decide (|x.aperture - bestAp.aperture| < vigEps))
    match minByFirst (fun a => |a.distance.getD 1000 - td|) candidates with
    | none => extract_vig_params bestAp
    | some bestD => extract_vig_params bestD

/-- Body of one iteration of the vignetting focal-length loop
(lens_correction.rs lines 315-339): near-equal focal pairs are skipped;
at the bracketing pair the two per-group best matches are interpolated when
the span exceeds 0.01, else the lower group wins. -/
def vigPairStep (ta td f : ℚ) (all : List Vignetting) (v1 v2 : Vignetting) :
    Option (ℚ × ℚ × ℚ) :=
  if |v1.focal - v2.focal| < vigEps then none
  else if v1.focal ≤ f ∧ f ≤ v2.focal then
    let g1 := all.filter (fun x => decide (|x.focal - v1.focal| < vigEps))
    let g2 := all.filter (fun x => decide (|x.focal - v2.focal| < vigEps))
    let p1 := find_best_vig ta td g1
    let p2 := find_best_vig ta td g2
    let range := v2.focal - v1.focal
    some (if vigEps < |range| then
            let t := (f - v1.focal) / range
            (p1.1 + t * (p2.1 - p1.1),
             p1.2.1 + t * (p2.2.1 - p1.2.1),
             p1.2.2 + t * (p2.2.2 - p1.2.2))
          else p1)
  else none

/-- Vignetting block of get_distortion_params (lens_correction.rs lines
283-343): aperture defaults to 3.5 and distance to 1000; the sorted table is
clamped to its boundary focal group within 0.01, otherwise the bracketing
focal groups are found and their best matches interpolated. -/
def vigPart (elements : List CalibrationElement) (f : ℚ) (ap dist : Option ℚ) :
    ℚ × ℚ × ℚ :=
  match List.insertionSort (fun a b => a.focal ≤ b.focal)
      (elements.filterMap asVignetting) with
  | [] => (0, 0, 0)
  | v0 :: rest =>
    let ta := ap.getD (7 / 2)
    let td := dist.getD 1000
    let vlast := rest.getLastD v0
    if f ≤ v0.focal + vigEps then
      find_best_vig ta td
        ((v0 :: rest).filter (fun x => decide (|x.focal - v0.focal| < vigEps)))
    else if vlast.focal - vigEps ≤ f then
      find_best_vig ta td
        ((v0 :: rest).filter (fun x => decide (|x.focal - vlast.focal| < vigEps)))
    else scanAdjPairs (vigPairStep ta td f (v0 :: rest)) (0, 0, 0) (v0 :: rest)

/-- Lens::get_distortion_params from lens_correction.rs: none exactly when
the lens has no calibration block; otherwise the three category resolvers
run on the calibration elements. -/
def Lens.get_distortion_params (lens : Lens) (f : ℚ) (ap dist : Option ℚ) :
    Option LensDistortionParams :=
  lens.calibration.map fun cal =>
    let d := distPart cal.elements f
    let t := tcaPart cal.elements f
    let v := vigPart cal.elements f ap dist
    ⟨d.k1, d.k2, d.k3, d.model, t.1, t.2, v.1, v.2.1, v.2.2⟩

end LensCorrection

namespace Highlight

/-- The linear rescale with clamp at zero applied to each channel in the
ThreeColor branch of develop_internal (raw_processing.rs lines 103-105). -/
def rescalePixel (k : ℚ) (p : ℚ × ℚ × ℚ) : ℚ × ℚ × ℚ :=
  (max (p.1 * k) 0, max (p.2.1 * k) 0, max (p.2.2 * k) 0)

/-- Largest channel of a pixel. -/
def maxChannel (p : ℚ × ℚ × ℚ) : ℚ :=
  max p.1 (max p.2.1 p.2.2)

/-- Highlight compression applied to an over-range rescaled pixel
(raw_processing.rs lines 110-129): the minimum channel is held fixed, the
spread above it is scaled by a clamped factor, and the result is rescaled so
its maximum equals the pre-compression maximum. -/
def compressPixel (safeHl : ℚ) (r g b : ℚ) : ℚ × ℚ × ℚ :=
  let maxC := max r (max g b)
  let minC := min r (min g b)
  let factor := min (max (1 - (maxC - 1) / (safeHl - 1)) 0) 1
  let cr := minC + (r - minC) * factor
  let cg := minC + (g - minC) * factor
  let cb := minC + (b - minC) * factor
  let cmax := max cr (max cg cb)
  if 1 / 1000000 < cmax then
    let rescale := maxC / cmax
    (cr * rescale, cg * rescale, cb * rescale)
  else (maxC, maxC, maxC)

/-- Per-pixel transform of the ThreeColor branch of develop_internal
(raw_processing.rs lines 101-137): channels are rescaled and clamped at
zero, and a pixel whose maximum exceeds 1.0 is compressed with the
compression point floored at 1.01. -/
def developPixel (k hl : ℚ) (p : ℚ × ℚ × ℚ) : ℚ × ℚ × ℚ :=
  let q := rescalePixel k p
  let safeHl := max hl (101 / 100)
  if 1 < maxChannel q then compressPixel safeHl q.1 q.2.1 q.2.2 else q

end Highlight

namespace Chroma

/-- Conversion from RGB to luma and two chroma planes, rgb_to_yc_only from
image_processing.rs.  Floating-point samples are modelled as reals. -/
def rgb_to_yc_only (r g b : ℝ) : ℝ × ℝ × ℝ :=
  (0.299 * r + 0.587 * g + 0.114 * b,
   -0.168736 * r - 0.331264 * g + 0.5 * b,
   0.5 * r - 0.418688 * g - 0.081312 * b)

/-- Conversion back from luma and chroma to RGB, yc_to_rgb from
image_processing.rs. -/
def yc_to_rgb (y cb cr : ℝ) : ℝ × ℝ × ℝ :=
  (y + 1.402 * cr,
   y - 0.344136 * cb - 0.714136 * cr,
   y + 1.772 * cb)

/-- Luma of an RGB pixel with the broadcast weights used by the filter. -/
def lumaOf (p : ℝ × ℝ × ℝ) : ℝ :=
  0.299 * p.1 + 0.587 * p.2.1 + 0.114 * p.2.2

/-- An RGB image: dimensions plus a row-major pixel buffer, modelled as a
function from coordinates to RGB triples. -/
structure ImageRGB where
  w : ℕ
  h : ℕ
  pix : ℕ → ℕ → ℝ × ℝ × ℝ

/-- The luma and chroma planes read by the filter (the ycbcr_buffer filled
in remove_raw_artifacts_and_enhance, lines 48-60). -/
def ycAt (img : ImageRGB) (x y : ℕ) : ℝ × ℝ × ℝ :=
  rgb_to_yc_only (img.pix x y).1 (img.pix x y).2.1 (img.pix x y).2.2

/-- The sparse neighbor offsets with their squared magnitudes (OFFSETS and
OFFSET_SQUARES in image_processing.rs). -/
def offsetPairs : List (ℤ × ℝ) := [(-5, 25), (-1, 1), (3, 9)]

/-- The bilateral accumulation loop of remove_raw_artifacts_and_enhance
(lines 82-115): weighted sums of neighbor chroma with weights
1 / (1 + (14 * lumaDifference)^2 + spatialPenalty), skipping out-of-bounds
neighbors.  Returns (cb_sum, cr_sum, w_sum). -/
noncomputable def neighborSums (img : ImageRGB) (cy : ℝ) (x y : ℕ) : ℝ × ℝ × ℝ :=
  offsetPairs.foldl (fun acc kyp =>
    let sy := (y : ℤ) + kyp.1
    if sy < 0 ∨ (img.h : ℤ) ≤ sy then acc
    else offsetPairs.foldl (fun acc2 kxp =>
      let sx := (x : ℤ) + kxp.1
      if sx < 0 ∨ (img.w : ℤ) ≤ sx then acc2
      else
        let nyc := ycAt img sx.toNat sy.toNat
        let v := |cy - nyc.1| * 14
        let wgt := 1 / (1 + v * v + (kxp.2 * 0.02 + kyp.2 * 0.02))
        (acc2.1 + nyc.2.1 * wgt, acc2.2.1 + nyc.2.2 * wgt, acc2.2.2 + wgt)) acc)
    (0, 0, 0)

/-- The chroma the filter emits for one pixel (lines 117-133): the weighted
average when the weight mass is significant, clamped back to the original
chroma magnitude when it would amplify a pixel whose original squared chroma
magnitude exceeds 1e-12; the original chroma when the weight mass is
negligible. -/
noncomputable def denoiseChroma (img : ImageRGB) (x y : ℕ) : ℝ × ℝ :=
  let c := ycAt img x y
  let s := neighborSums img c.1 x y
  if 1 / 10000 < s.2.2 then
    let fcb := s.1 / s.2.2
    let fcr := s.2.1 / s.2.2
    let origMagSq := c.2.1 * c.2.1 + c.2.2 * c.2.2
    let filtMagSq := fcb * fcb + fcr * fcr
    if origMagSq < filtMagSq ∧ 1 / 1000000000000 < origMagSq then
      let scale := Real.sqrt (origMagSq / filtMagSq)
      (fcb * scale, fcr * scale)
    else (fcb, fcr)
  else (c.2.1, c.2.2)

/-- remove_raw_artifacts_and_enhance from image_processing.rs: each output
pixel is rebuilt from the original luma and the denoised chroma. -/
noncomputable def remove_raw_artifacts_and_enhance (img : ImageRGB) : ImageRGB :=
  { w := img.w, h := img.h,
    pix := fun x y =>
      let c := ycAt img x y
      let oc := denoiseChroma img x y
      yc_to_rgb c.1 oc.1 oc.2 }

/-- Squared chroma magnitude of a chroma pair. -/
def chromaMagSq (c : ℝ × ℝ) : ℝ := c.1 * c.1 + c.2 * c.2

/-- A 4x4 test image: mid-gray everywhere except the pixel at (3, 3), whose
luma is exactly one half but whose chroma is strongly red.  The gray pixel
at (0, 0) has exactly one in-bounds neighbor offset, namely (3, 3). -/
noncomputable def crossTalkImage : ImageRGB :=
  { w := 4, h := 4,
    pix := fun x y =>
      if x = 3 ∧ y = 3 then (4 / 5, 1019 / 2935, 1 / 2)
      else (1 / 2, 1 / 2, 1 / 2) }

/-- A 1x1 pure red image: every neighbor offset of its single pixel is out
of bounds. -/
noncomputable def redPixelImage : ImageRGB :=
  { w := 1, h := 1, pix := fun _ _ => (1, 0, 0) }

end Chroma

namespace Develop

/-- Image dimensions (rawler Dim2). -/
structure Dim2 where
  w : ℕ
  h : ℕ
deriving DecidableEq

/-- A rectangle: origin plus dimensions (rawler Rect). -/
structure Rect where
  x : ℕ
  y : ℕ
  d : Dim2
deriving DecidableEq

/-- Processing steps of the develop pipeline (develop.rs enum ProcessingStep). -/
inductive ProcessingStep where
  | Rescale
  | Demosaic
  | CropActiveArea
  | WhiteBalance
  | Calibrate
  | CropDefault
  | SRgb
deriving DecidableEq

/-- Demosaic quality selector (develop.rs enum DemosaicAlgorithm). -/
inductive DemosaicAlgorithm where
  | Quality
  | Speed
deriving DecidableEq

/-- Reference illuminants keying the camera color matrices (rawler
imgop::xyz::Illuminant; only the constructors relevant here are listed,
plus a representative remainder). -/
inductive Illuminant where
  | A
  | C
  | D50
  | D55
  | D65
  | D75
  | Unknown
deriving DecidableEq

/-- CFA pattern descriptor.  Modelled from the spec: the CFA descriptor
exposes the pattern tile width and height, an RGB-likeness flag and the
unique color count (the rawler CFA type is not under src/, only its call
sites in develop.rs are). -/
structure CfaPattern where
  name : String
  width : ℕ
  height : ℕ
  is_rgb : Bool
  unique_colors : ℕ
deriving DecidableEq

/-- CFA configuration carried by the photometric interpretation
(rawler CFAConfig; the per-cell color table is not needed at this level). -/
structure CfaConfig where
  cfa : CfaPattern
deriving DecidableEq

/-- Photometric interpretation of the raw data (rawler
RawPhotometricInterpretation): a CFA mosaic or anything else. -/
inductive RawPhotometric where
  | Cfa (config : CfaConfig)
  | Other
deriving DecidableEq

/-- The sensor image metadata read by develop_intermediate.  Pixel sample
values are not tracked: the claims settled here concern variant tags,
dimensions and failure, and the demosaic kernels that would consume the
samples are not under src/.  NaN white-balance coefficients are modelled as
none. -/
structure RawImage where
  cpp : ℕ
  width : ℕ
  height : ℕ
  photometric : RawPhotometric
  wb_coeffs : List (Option ℚ)
  color_matrix : List (Illuminant × List ℚ)
  active_area : Option Rect
  crop_area : Option Rect

/-- Pipeline working buffer (develop.rs enum Intermediate), tracked at the
level of variant tag and dimensions. -/
inductive Intermediate where
  | monochrome (d : Dim2)
  | threeColor (d : Dim2)
  | fourColor (d : Dim2)
deriving DecidableEq

/-- Dimensions of an intermediate (Intermediate::dim). -/
def Intermediate.dim : Intermediate → Dim2
  | .monochrome d => d
  | .threeColor d => d
  | .fourColor d => d

/-- Replace the dimensions of an intermediate, keeping its variant. -/
def Intermediate.withDim : Intermediate → Dim2 → Intermediate
  | .monochrome _, d => .monochrome d
  | .threeColor _, d => .threeColor d
  | .fourColor _, d => .fourColor d

/-- The develop pipeline configuration (develop.rs struct RawDevelop). -/
structure RawDevelop where
  steps : List ProcessingStep
  demosaic_algorithm : DemosaicAlgorithm

/-- Modelled from the spec: the Rescale step linearly remaps sample values
from the black..white range to the working headroom (rawimage.apply_scaling
is in a rawler module not under src/). On the shape and metadata level
tracked here it changes nothing. -/
def applyScaling (raw : RawImage) : RawImage := raw

/-- Modelled from the spec: a Quality demosaic kernel (PPG for Bayer,
full-resolution X-Trans, bilinear 4-channel) preserves the full resolution
of the region it operates on.  The kernels live in rawler sensor modules
not under src/. -/
def demosaicFullDim (roi : Rect) : Dim2 := roi.d

/-- Modelled from the spec: a Speed superpixel demosaic kernel bins 2x2
blocks and halves both dimensions of the region. -/
def demosaicHalfDim (roi : Rect) : Dim2 := ⟨roi.d.w / 2, roi.d.h / 2⟩

/-- Demosaic dispatch for a Monochrome intermediate (develop.rs lines
174-215): 6x6 RGB tiles go to the X-Trans family, other RGB tiles to the
Bayer family (both producing ThreeColor), 4-unique-color tiles to the
4-channel family, and unrecognized patterns pass through unchanged. -/
def demosaicMonochrome (alg : DemosaicAlgorithm) (cfa : CfaPattern) (roi : Rect)
    (pix : Dim2) : Intermediate :=
  if cfa.is_rgb then
    if cfa.width = 6 ∧ cfa.height = 6 then
      Intermediate.threeColor
        (match alg with
         | .Quality => demosaicFullDim roi
         | .Speed => demosaicHalfDim roi)
    else
      Intermediate.threeColor
        (match alg with
         | .Quality => demosaicFullDim roi
         | .Speed => demosaicHalfDim roi)
  else if cfa.unique_colors = 4 then
    Intermediate.fourColor
      (match alg with
       | .Quality => demosaicFullDim roi
       | .Speed => demosaicHalfDim roi)
  else Intermediate.monochrome pix

/-- The Demosaic stage of develop_intermediate (develop.rs lines 153-222):
only CFA-photometric Monochrome intermediates are demosaiced; the region is
the active area when active-area cropping is also requested. -/
def demosaicStage (dev : RawDevelop) (raw : RawImage) (i : Intermediate) :
    Intermediate :=
  match raw.photometric with
  | .Cfa config =>
    match i with
    | .monochrome d =>
      let roi := if ProcessingStep.CropActiveArea ∈ dev.steps then
          raw.active_area.getD ⟨0, 0, d⟩
        else ⟨0, 0, d⟩
      demosaicMonochrome dev.demosaic_algorithm config.cfa roi d
    | other => other
  | _ => i

/-- The D65 error fragment quoted by the spec. -/
def d65MissingMsg : String := "Color matrix for D65 illuminant not found"

/-- The Calibrate stage of develop_intermediate (develop.rs lines 224-257):
NaN white-balance coefficients become 1.0 (all coefficients become 1.0 when
the WhiteBalance step is absent), and the camera matrix keyed by the D65
illuminant is required; ThreeColor and FourColor intermediates map to
ThreeColor of the same dimensions, Monochrome passes through. -/
def calibrateStage (dev : RawDevelop) (raw : RawImage) (i : Intermediate) :
    Except String Intermediate :=
  let _wb : List ℚ :=
    if ProcessingStep.WhiteBalance ∈ dev.steps then
      raw.wb_coeffs.map (fun c => c.getD 1)
    else [1, 1, 1, 1]
  match raw.color_matrix.find? (fun e => decide (e.1 = Illuminant.D65)) with
  | none => .error ("Calibration failed: " ++ d65MissingMsg)
  | some _ =>
    .ok (match i with
         | .monochrome d => .monochrome d
         | .threeColor d => .threeColor d
         | .fourColor d => .threeColor d)

/-- Modelled from the spec: intersection of two rectangles (rawler Rect
operations are not under src/). -/
def rectIntersect (a b : Rect) : Rect :=
  let x1 := max a.x b.x
  let y1 := max a.y b.y
  let x2 := min (a.x + a.d.w) (b.x + b.d.w)
  let y2 := min (a.y + a.d.h) (b.y + b.d.h)
  ⟨x1, y1, ⟨x2 - x1, y2 - y1⟩⟩

/-- Modelled from the spec: re-expressing a rectangle relative to the origin
of a base rectangle (the crop is adapted to the active area). -/
def rectAdapt (r base : Rect) : Rect :=
  ⟨r.x - base.x, r.y - base.y, r.d⟩

/-- Modelled from the spec: scaling a rectangle by a rational factor,
flooring each coordinate. -/
def rectScale (r : Rect) (sf : ℚ) : Rect :=
  ⟨(⌊sf * r.x⌋).toNat, (⌊sf * r.y⌋).toNat,
   ⟨(⌊sf * r.d.w⌋).toNat, (⌊sf * r.d.h⌋).toNat⟩⟩

/-- A rectangle with no area. -/
def rectIsEmpty (r : Rect) : Bool := r.d.w = 0 || r.d.h = 0

/-- The CropDefault stage of develop_intermediate (develop.rs lines
259-283): the default crop is intersected with the active area when both
demosaic and active-area cropping ran, scaled by the ratio of the current
width to the original active width, and applied when non-empty and
different from the current extent. -/
def cropStage (dev : RawDevelop) (raw : RawImage) (i : Intermediate) :
    Intermediate :=
  match raw.crop_area with
  | none => i
  | some crop0 =>
    let crop1 :=
      if ProcessingStep.Demosaic ∈ dev.steps ∧
          ProcessingStep.CropActiveArea ∈ dev.steps then
        match raw.active_area with
        | some aa => rectAdapt (rectIntersect crop0 aa) aa
        | none => crop0
      else crop0
    let ow := (raw.active_area.map (fun a => a.d.w)).getD raw.width
    let crop2 :=
      if 0 < ow then
        let sf : ℚ := (i.dim.w : ℚ) / (ow : ℚ)
        if 1 / 1000000 < |sf - 1| then rectScale crop1 sf else crop1
      else crop1
    if ¬ rectIsEmpty crop2 ∧ crop2.d ≠ i.dim then i.withDim crop2.d else i

/-- The SRgb stage applies the gamma transfer function to each sample
(develop.rs lines 285-291); on the shape level it changes nothing. -/
def srgbStage (i : Intermediate) : Intermediate := i

/-- Pipeline tail of develop_intermediate, shared by the three supported
component counts: optional demosaic, optional calibration (which can fail),
optional default crop, optional gamma encoding. -/
def developAfterInit (dev : RawDevelop) (rawi : RawImage) (i0 : Intermediate) :
    Except String Intermediate :=
  let i1 := if ProcessingStep.Demosaic ∈ dev.steps then
      demosaicStage dev rawi i0
    else i0
  match (if ProcessingStep.Calibrate ∈ dev.steps then
      calibrateStage dev rawi i1
    else .ok i1) with
  | .error e => .error e
  | .ok i2 =>
    let i3 := if ProcessingStep.CropDefault ∈ dev.steps then
        cropStage dev rawi i2
      else i2
    .ok (if ProcessingStep.SRgb ∈ dev.steps then srgbStage i3 else i3)

/-- RawDevelop::develop_intermediate (develop.rs lines 132-294), at the
variant, dimension and error level: optional rescale, the initial
intermediate selected by component count (unsupported counts panic in the
source, modelled as an error), then the pipeline tail developAfterInit. -/
def developIntermediate (dev : RawDevelop) (raw : RawImage) :
    Except String Intermediate :=
  let rawi := if ProcessingStep.Rescale ∈ dev.steps then applyScaling raw else raw
  match rawi.cpp with
  | 1 => developAfterInit dev rawi (.monochrome ⟨rawi.width, rawi.height⟩)
  | 3 => developAfterInit dev rawi (.threeColor ⟨rawi.width, rawi.height⟩)
  | 4 => developAfterInit dev rawi (.fourColor ⟨rawi.width, rawi.height⟩)
  | _ => .error "develop_intermediate: unimplemented component count"

end Develop

namespace LensCorrection

/-- Example two-entry distortion table from the spec scenario: poly3 entries
at 24mm with k1 = 0.1 and at 70mm with k1 = 0.3. -/
def distEntry24 : Distortion :=
  ⟨"poly3", 24, none, some (1 / 10), none, none, none, none, none⟩

/-- Upper entry of the spec scenario table. -/
def distEntry70 : Distortion :=
  ⟨"poly3", 70, none, some (3 / 10), none, none, none, none, none⟩

/-- Elements of the spec scenario calibration block. -/
def exampleElements : List CalibrationElement :=
  [.distortion distEntry24, .distortion distEntry70]

/-- TCA entries used to exercise the boundary clamping paths. -/
def tcaEntry24 : Tca :=
  ⟨"poly3", 24, some (101 / 100), some (99 / 100), none, none, none, none⟩

/-- Upper TCA entry of the boundary example. -/
def tcaEntry70 : Tca :=
  ⟨"poly3", 70, some (103 / 100), some (97 / 100), none, none, none, none⟩

/-- Calibration elements holding both distortion and TCA tables. -/
def boundaryElements : List CalibrationElement :=
  [.distortion distEntry24, .distortion distEntry70,
   .tca tcaEntry24, .tca tcaEntry70]

/-- Vignetting table with two focal groups for the interpolation example. -/
def vigEntry28 : Vignetting :=
  ⟨"pa", 28, 14 / 5, some 1000, some (1 / 5), none, none⟩

/-- Upper vignetting entry of the interpolation example. -/
def vigEntry50 : Vignetting :=
  ⟨"pa", 50, 14 / 5, some 1000, some (2 / 5), none, none⟩

/-- Calibration elements holding the vignetting example table. -/
def vigElements : List CalibrationElement :=
  [.vignetting vigEntry28, .vignetting vigEntry50]

/-- A lens whose calibration block is present but empty in every category. -/
def lensEmptyCal : Lens := ⟨none, some ⟨[]⟩⟩

/-- In a list sorted by a rational key, every element's key is bounded by
the key of the last element. -/
theorem key_le_getLastD {α : Type} (key : α → ℚ) (l : List α) :
    ∀ (a : α), (a :: l).Pairwise (fun u v => key u ≤ key v) →
      ∀ x ∈ a :: l, key x ≤ key (l.getLastD a) := by
  induction l with
  | nil =>
    intro a _ x hx
    rcases List.mem_singleton.mp hx with rfl
    exact le_refl _
  | cons b l ih =>
    intro a hp x hx
    rw [List.getLastD_cons]
    have hp2 : (b :: l).Pairwise (fun u v => key u ≤ key v) := hp.of_cons
    have hab : key a ≤ key b := (List.pairwise_cons.mp hp).1 b (by simp)
    rcases List.mem_cons.mp hx with rfl | hx2
    · exact le_trans hab (ih b hp2 b (by simp))
    · exact ih b hp2 x hx2

/-- Auxiliary invariant for the fold inside minByFirst: a strictly minimal
element of the remaining list (or already in the accumulator) wins. -/
theorem foldl_minBy_aux {α : Type} (key : α → ℚ) (e : α) :
    ∀ (xs : List α) (acc : α),
      (acc = e ∨ key e < key acc) → (e ∈ xs ∨ acc = e) →
      (∀ x ∈ xs, x ≠ e → key e < key x) →
      xs.foldl (fun acc y => if key y < key acc then y else acc) acc = e := by
  intro xs
  induction xs with
  | nil =>
    intro acc _ h2 _
    rcases h2 with h | rfl
    · cases h
    · rfl
  | cons y ys ih =>
    intro acc h1 h2 h3
    by_cases hy : y = e
    · subst hy
      by_cases hlt : key y < key acc
      · rw [List.foldl_cons, if_pos hlt]
        exact ih y (Or.inl rfl) (Or.inr rfl) (fun x hx hne => h3 x (by simp [hx]) hne)
      · rcases h1 with rfl | hlt2
        · rw [List.foldl_cons, if_neg hlt]
          exact ih acc (Or.inl rfl) (Or.inr rfl) (fun x hx hne => h3 x (by simp [hx]) hne)
        · exact absurd hlt2 hlt
    · have hey : key e < key y := h3 y (by simp) hy
      by_cases hlt : key y < key acc
      · rw [List.foldl_cons, if_pos hlt]
        have hin : e ∈ ys := by
          rcases h2 with hmem | rfl
          · rcases List.mem_cons.mp hmem with rfl | h
            · exact absurd rfl hy
            · exact h
          · exact absurd (lt_trans hey hlt) (lt_irrefl _)
        exact ih y (Or.inr hey) (Or.inl hin) (fun x hx hne => h3 x (by simp [hx]) hne)
      · rw [List.foldl_cons, if_neg hlt]
        have hin : e ∈ ys ∨ acc = e := by
          rcases h2 with hmem | rfl
          · rcases List.mem_cons.mp hmem with rfl | h
            · exact absurd rfl hy
            · exact Or.inl h
          · exact Or.inr rfl
        exact ih acc h1 hin (fun x hx hne => h3 x (by simp [hx]) hne)

/-- minByFirst returns the strictly minimal element when it is unique. -/
theorem minByFirst_eq_of_strict {α : Type} (key : α → ℚ) (l : List α) (e : α)
    (he : e ∈ l) (hmin : ∀ x ∈ l, x ≠ e → key e < key x) :
    minByFirst key l = some e := by
  cases l with
  | nil => cases he
  | cons x xs =>
    show some _ = some e
    congr 1
    apply foldl_minBy_aux key e xs x
    · by_cases hx : x = e
      · exact Or.inl hx
      · exact Or.inr (hmin x (by simp) hx)
    · rcases List.mem_cons.mp he with rfl | h
      · exact Or.inr rfl
      · exact Or.inl h
    · exact fun z hz hne => hmin z (by simp [hz]) hne

/-- The adjacent-pair scan lands on the first pair producing a result when
every earlier consecutive pair produces none. -/
theorem scanAdjPairs_append {α β : Type} (step : α → α → Option β) (dflt : β)
    (v : β) :
    ∀ (l1 : List α) (d1 d2 : α) (post : List α),
      List.Chain' (fun a b => step a b = none) (l1 ++ [d1]) →
      step d1 d2 = some v →
      scanAdjPairs step dflt (l1 ++ d1 :: d2 :: post) = v := by
  intro l1
  induction l1 with
  | nil =>
    intro d1 d2 post _ hd
    simp [scanAdjPairs, hd]
  | cons a l1 ih =>
    intro d1 d2 post hchain hd
    cases l1 with
    | nil =>
      have h0 : step a d1 = none := (List.chain'_cons.mp hchain).1
      simpa [scanAdjPairs, h0] using ih d1 d2 post (by simp) hd
    | cons b l2 =>
      have h0 : step a b = none := (List.chain'_cons.mp hchain).1
      have hch2 := (List.chain'_cons.mp hchain).2
      simpa [scanAdjPairs, h0] using ih d1 d2 post hch2 hd

/-- Claim C10: get_distortion_params returns none exactly when the lens
carries no calibration block at all; any present block, even one empty in
every category, yields some resolved parameter record. -/
theorem c10_none_iff_no_calibration (lens : Lens) (f : ℚ) (ap dist : Option ℚ) :
    lens.get_distortion_params f ap dist = none ↔ lens.calibration = none := by
  cases h : lens.calibration <;>
    simp [Lens.get_distortion_params, h]

/-- Claim C7: a present calibration block with no entries of a category
resolves that category to its neutral defaults rather than failing:
distortion k1 = k2 = k3 = 0 with the polynomial model tag 0, TCA scale
factors 1.0, vignetting k1 = k2 = k3 = 0. -/
theorem c7_empty_category_defaults (lens : Lens) (cal : Calibration) (f : ℚ)
    (ap dist : Option ℚ) (hcal : lens.calibration = some cal) :
    (lens.get_distortion_params f ap dist).isSome = true ∧
    (cal.elements.filterMap asDistortion = [] →
      distPart cal.elements f = ⟨0, 0, 0, 0⟩) ∧
    (cal.elements.filterMap asTca = [] →
      tcaPart cal.elements f = (1, 1)) ∧
    (cal.elements.filterMap asVignetting = [] →
      vigPart cal.elements f ap dist = (0, 0, 0)) := by
  refine ⟨by simp [Lens.get_distortion_params, hcal], ?_, ?_, ?_⟩
  · intro hd
    simp [distPart, hd, List.insertionSort]
  · intro ht
    simp [tcaPart, ht, List.insertionSort]
  · intro hv
    simp [vigPart, hv, List.insertionSort]

/-- Witness for C7 on a lens whose calibration block is empty. -/
theorem c7_empty_category_defaults_witness :
    distPart ([] : List CalibrationElement) 50 = ⟨0, 0, 0, 0⟩ ∧
    tcaPart ([] : List CalibrationElement) 50 = (1, 1) ∧
    vigPart ([] : List CalibrationElement) 50 none none = (0, 0, 0) :=
  ⟨(c7_empty_category_defaults lensEmptyCal ⟨[]⟩ 50 none none rfl).2.1 rfl,
   (c7_empty_category_defaults lensEmptyCal ⟨[]⟩ 50 none none rfl).2.2.1 rfl,
   (c7_empty_category_defaults lensEmptyCal ⟨[]⟩ 50 none none rfl).2.2.2 rfl⟩

end LensCorrection

namespace Highlight

/-- Claim C3: a pixel whose per-channel maximum after the linear rescale is
at most 1.0 passes through highlight compression unchanged, and compression
alters only pixels whose rescaled maximum exceeds 1.0. -/
theorem c3_compression_noop_in_gamut (k hl : ℚ) (p : ℚ × ℚ × ℚ) :
    (maxChannel (rescalePixel k p) ≤ 1 →
      developPixel k hl p = rescalePixel k p) ∧
    (developPixel k hl p ≠ rescalePixel k p →
      1 < maxChannel (rescalePixel k p)) := by
  constructor
  · intro h
    simp only [developPixel]
    rw [if_neg (not_lt.mpr h)]
  · intro hne
    by_contra hle
    apply hne
    simp only [developPixel]
    rw [if_neg (not_lt.mpr (not_lt.mp hle))]

/-- Witness for C3 at a concrete in-gamut pixel. -/
theorem c3_compression_noop_in_gamut_witness :
    maxChannel (rescalePixel (1 / 2) (1, 1, 1)) ≤ 1 ∧
    developPixel (1 / 2) 2 (1, 1, 1) = rescalePixel (1 / 2) (1, 1, 1) :=
  ⟨by norm_num [maxChannel, rescalePixel],
   (c3_compression_noop_in_gamut (1 / 2) 2 (1, 1, 1)).1
     (by norm_num [maxChannel, rescalePixel])⟩

end Highlight

namespace Develop

/-- Claim C1: on an RGB CFA with a 2x2 tile, demosaicing a Monochrome
intermediate yields a ThreeColor intermediate whose dimensions equal the
region dimensions under the Quality algorithm and half of each axis under
the Speed algorithm. -/
theorem c1_bayer_demosaic_dims (cfa : CfaPattern) (roi : Rect) (pix : Dim2)
    (hrgb : cfa.is_rgb = true) (hw : cfa.width = 2) (hh : cfa.height = 2) :
    demosaicMonochrome .Quality cfa roi pix = .threeColor roi.d ∧
    demosaicMonochrome .Speed cfa roi pix =
      .threeColor ⟨roi.d.w / 2, roi.d.h / 2⟩ := by
  constructor <;>
    simp [demosaicMonochrome, hrgb, hw, hh, demosaicFullDim, demosaicHalfDim]

/-- The RGGB Bayer pattern descriptor used in the witnesses. -/
def rggbCfa : CfaPattern := ⟨"RGGB", 2, 2, true, 3⟩

/-- Witness for C1 on a concrete 6x4 region. -/
theorem c1_bayer_demosaic_dims_witness :
    demosaicMonochrome .Quality rggbCfa ⟨0, 0, ⟨6, 4⟩⟩ ⟨8, 8⟩ =
      .threeColor ⟨6, 4⟩ ∧
    demosaicMonochrome .Speed rggbCfa ⟨0, 0, ⟨6, 4⟩⟩ ⟨8, 8⟩ =
      .threeColor ⟨3, 2⟩ :=
  c1_bayer_demosaic_dims rggbCfa ⟨0, 0, ⟨6, 4⟩⟩ ⟨8, 8⟩ rfl rfl rfl

/-- Claim C9: with the Calibrate step requested on a supported component
count, a color-matrix set with no D65 entry makes develop_intermediate fail
with the error message containing the quoted fragment and no intermediate
is produced, while a present D65 entry rules this failure out. -/
theorem c9_d65_matrix_required (dev : RawDevelop) (raw : RawImage)
    (hcal : ProcessingStep.Calibrate ∈ dev.steps)
    (hcpp : raw.cpp = 1 ∨ raw.cpp = 3 ∨ raw.cpp = 4) :
    ((∀ e ∈ raw.color_matrix, e.1 ≠ Illuminant.D65) →
      developIntermediate dev raw =
        .error ("Calibration failed: " ++ d65MissingMsg)) ∧
    ((∃ m, (Illuminant.D65, m) ∈ raw.color_matrix) →
      developIntermediate dev raw ≠
        .error ("Calibration failed: " ++ d65MissingMsg)) := by
  have hraw : (if ProcessingStep.Rescale ∈ dev.steps then applyScaling raw
      else raw) = raw := by
    simp [applyScaling]
  constructor
  · intro hmiss
    have hfind : raw.color_matrix.find?
        (fun e => decide (e.1 = Illuminant.D65)) = none := by
      rw [List.find?_eq_none]
      intro x hx
      simpa using hmiss x hx
    rcases hcpp with h1 | h1 | h1 <;>
      simp [developIntermediate, hraw, h1, developAfterInit, hcal,
        calibrateStage, hfind]
  · intro hpres
    obtain ⟨m, hm⟩ := hpres
    have hsome : (raw.color_matrix.find?
        (fun e => decide (e.1 = Illuminant.D65))).isSome := by
      rw [List.find?_isSome]
      exact ⟨(Illuminant.D65, m), hm, by simp⟩
    obtain ⟨y, hy⟩ := Option.isSome_iff_exists.mp hsome
    rcases hcpp with h1 | h1 | h1 <;>
      simp [developIntermediate, hraw, h1, developAfterInit, hcal,
        calibrateStage, hy]

/-- Develop configuration running only the Calibrate step. -/
def calibrateOnlyDev : RawDevelop := ⟨[ProcessingStep.Calibrate], .Quality⟩

/-- A one-component sensor with no color matrices at all. -/
def rawNoD65 : RawImage := ⟨1, 4, 4, .Other, [], [], none, none⟩

/-- The same sensor with an identity matrix keyed by D65. -/
def rawWithD65 : RawImage :=
  ⟨1, 4, 4, .Other, [], [(Illuminant.D65, [1, 0, 0, 0, 1, 0, 0, 0, 1])],
   none, none⟩

/-- Witness for C9: the failing and the succeeding concrete pipelines. -/
theorem c9_d65_matrix_required_witness :
    developIntermediate calibrateOnlyDev rawNoD65 =
      .error ("Calibration failed: " ++ d65MissingMsg) ∧
    developIntermediate calibrateOnlyDev rawWithD65 ≠
      .error ("Calibration failed: " ++ d65MissingMsg) :=
  ⟨(c9_d65_matrix_required calibrateOnlyDev rawNoD65 (by simp [calibrateOnlyDev])
      (Or.inl rfl)).1 (by simp [rawNoD65]),
   (c9_d65_matrix_required calibrateOnlyDev rawWithD65 (by simp [calibrateOnlyDev])
      (Or.inl rfl)).2
     ⟨[1, 0, 0, 0, 1, 0, 0, 0, 1], by simp [rawWithD65]⟩⟩

end Develop

namespace LensCorrection

/-- Claim C6, distortion and TCA exact match and boundary clamping: on a
sorted non-empty table, a query within 1e-5 of an entry returns the first
such entry's coefficients unmodified; with no entry within 1e-5, a query
below the minimum focal length returns the minimum entry's coefficients and
a query above the maximum returns the maximum entry's coefficients. -/
theorem c6_exact_and_boundary_clamp (elements : List CalibrationElement) (f : ℚ) :
    (∀ d0 rest e, elements.filterMap asDistortion = d0 :: rest →
      (d0 :: rest).Pairwise (fun a b => a.focal ≤ b.focal) →
      (d0 :: rest).find? (fun d => decide (|d.focal - f| < distEps)) = some e →
      distPart elements f = extract_dist_params e) ∧
    (∀ d0 rest, elements.filterMap asDistortion = d0 :: rest →
      (d0 :: rest).Pairwise (fun a b => a.focal ≤ b.focal) →
      (∀ d ∈ d0 :: rest, distEps ≤ |d.focal - f|) →
      f < d0.focal →
      distPart elements f = extract_dist_params d0) ∧
    (∀ d0 rest, elements.filterMap asDistortion = d0 :: rest →
      (d0 :: rest).Pairwise (fun a b => a.focal ≤ b.focal) →
      (∀ d ∈ d0 :: rest, distEps ≤ |d.focal - f|) →
      (rest.getLastD d0).focal < f →
      distPart elements f = extract_dist_params (rest.getLastD d0)) ∧
    (∀ t0 rest e, elements.filterMap asTca = t0 :: rest →
      (t0 :: rest).Pairwise (fun a b => a.focal ≤ b.focal) →
      (t0 :: rest).find? (fun d => decide (|d.focal - f| < distEps)) = some e →
      tcaPart elements f = extract_tca_params e) ∧
    (∀ t0 rest, elements.filterMap asTca = t0 :: rest →
      (t0 :: rest).Pairwise (fun a b => a.focal ≤ b.focal) →
      (∀ t ∈ t0 :: rest, distEps ≤ |t.focal - f|) →
      f < t0.focal →
      tcaPart elements f = extract_tca_params t0) ∧
    (∀ t0 rest, elements.filterMap asTca = t0 :: rest →
      (t0 :: rest).Pairwise (fun a b => a.focal ≤ b.focal) →
      (∀ t ∈ t0 :: rest, distEps ≤ |t.focal - f|) →
      (rest.getLastD t0).focal < f →
      tcaPart elements f = extract_tca_params (rest.getLastD t0)) := by
  refine ⟨?_, ?_, ?_, ?_, ?_, ?_⟩
  · intro d0 rest e hl hsort hfind
    have hs : List.insertionSort (fun a b => a.focal ≤ b.focal)
        (elements.filterMap asDistortion) = d0 :: rest := by
      rw [hl]
      exact List.Sorted.insertionSort_eq hsort
    rw [distPart, hs]
    dsimp only
    rw [hfind]
  · intro d0 rest hl hsort hno hlt
    have hs : List.insertionSort (fun a b => a.focal ≤ b.focal)
        (elements.filterMap asDistortion) = d0 :: rest := by
      rw [hl]
      exact List.Sorted.insertionSort_eq hsort
    have hnone : (d0 :: rest).find?
        (fun d => decide (|d.focal - f| < distEps)) = none := by
      rw [List.find?_eq_none]
      intro x hx
      simp only [decide_eq_true_eq]
      exact not_lt.mpr (hno x hx)
    rw [distPart, hs]
    dsimp only
    rw [hnone, if_pos hlt]
  · intro d0 rest hl hsort hno hgt
    have hs : List.insertionSort (fun a b => a.focal ≤ b.focal)
        (elements.filterMap asDistortion) = d0 :: rest := by
      rw [hl]
      exact List.Sorted.insertionSort_eq hsort
    have hnone : (d0 :: rest).find?
        (fun d => decide (|d.focal - f| < distEps)) = none := by
      rw [List.find?_eq_none]
      intro x hx
      simp only [decide_eq_true_eq]
      exact not_lt.mpr (hno x hx)
    have hd0 : d0.focal ≤ (rest.getLastD d0).focal :=
      key_le_getLastD (fun d => d.focal) rest d0 hsort d0 (by simp)
    have hnlt : ¬ f < d0.focal := not_lt.mpr (le_of_lt (lt_of_le_of_lt hd0 hgt))
    rw [distPart, hs]
    dsimp only
    rw [hnone, if_neg hnlt, if_pos hgt]
  · intro t0 rest e hl hsort hfind
    have hs : List.insertionSort (fun a b => a.focal ≤ b.focal)
        (elements.filterMap asTca) = t0 :: rest := by
      rw [hl]
      exact List.Sorted.insertionSort_eq hsort
    rw [tcaPart, hs]
    dsimp only
    rw [hfind]
  · intro t0 rest hl hsort hno hlt
    have hs : List.insertionSort (fun a b => a.focal ≤ b.focal)
        (elements.filterMap asTca) = t0 :: rest := by
      rw [hl]
      exact List.Sorted.insertionSort_eq hsort
    have hnone : (t0 :: rest).find?
        (fun d => decide (|d.focal - f| < distEps)) = none := by
      rw [List.find?_eq_none]
      intro x hx
      simp only [decide_eq_true_eq]
      exact not_lt.mpr (hno x hx)
    rw [tcaPart, hs]
    dsimp only
    rw [hnone, if_pos hlt]
  · intro t0 rest hl hsort hno hgt
    have hs : List.insertionSort (fun a b => a.focal ≤ b.focal)
        (elements.filterMap asTca) = t0 :: rest := by
      rw [hl]
      exact List.Sorted.insertionSort_eq hsort
    have hnone : (t0 :: rest).find?
        (fun d => decide (|d.focal - f| < distEps)) = none := by
      rw [List.find?_eq_none]
      intro x hx
      simp only [decide_eq_true_eq]
      exact not_lt.mpr (hno x hx)
    have ht0 : t0.focal ≤ (rest.getLastD t0).focal :=
      key_le_getLastD (fun t => t.focal) rest t0 hsort t0 (by simp)
    have hnlt : ¬ f < t0.focal := not_lt.mpr (le_of_lt (lt_of_le_of_lt ht0 hgt))
    rw [tcaPart, hs]
    dsimp only
    rw [hnone, if_neg hnlt, if_pos hgt]

/-- Witness for C6 on the concrete 24mm and 70mm tables: exact match at
24mm, clamping below at 10mm and above at 100mm. -/
theorem c6_exact_and_boundary_clamp_witness :
    distPart boundaryElements 24 = ⟨1 / 10, 0, 0, 0⟩ ∧
    distPart boundaryElements 10 = ⟨1 / 10, 0, 0, 0⟩ ∧
    distPart boundaryElements 100 = ⟨3 / 10, 0, 0, 0⟩ ∧
    tcaPart boundaryElements 24 = (101 / 100, 99 / 100) ∧
    tcaPart boundaryElements 10 = (101 / 100, 99 / 100) ∧
    tcaPart boundaryElements 100 = (103 / 100, 97 / 100) := by
  have hnoD : ∀ d ∈ [distEntry24, distEntry70], distEps ≤ |d.focal - (10 : ℚ)| := by
    norm_num [List.forall_mem_cons, distEntry24, distEntry70, distEps, le_abs]
  have hnoD2 : ∀ d ∈ [distEntry24, distEntry70], distEps ≤ |d.focal - (100 : ℚ)| := by
    norm_num [List.forall_mem_cons, distEntry24, distEntry70, distEps, le_abs]
  have hnoT : ∀ t ∈ [tcaEntry24, tcaEntry70], distEps ≤ |t.focal - (10 : ℚ)| := by
    norm_num [List.forall_mem_cons, tcaEntry24, tcaEntry70, distEps, le_abs]
  have hnoT2 : ∀ t ∈ [tcaEntry24, tcaEntry70], distEps ≤ |t.focal - (100 : ℚ)| := by
    norm_num [List.forall_mem_cons, tcaEntry24, tcaEntry70, distEps, le_abs]
  refine ⟨?_, ?_, ?_, ?_, ?_, ?_⟩
  · rw [(c6_exact_and_boundary_clamp boundaryElements 24).1 distEntry24
      [distEntry70] distEntry24 rfl (by decide)
      (List.find?_cons_of_pos _ (by norm_num [distEntry24, distEps]))]
    rfl
  · rw [(c6_exact_and_boundary_clamp boundaryElements 10).2.1 distEntry24
      [distEntry70] rfl (by decide) hnoD (by norm_num [distEntry24])]
    rfl
  · rw [(c6_exact_and_boundary_clamp boundaryElements 100).2.2.1 distEntry24
      [distEntry70] rfl (by decide) hnoD2 (by norm_num [distEntry70])]
    rfl
  · rw [(c6_exact_and_boundary_clamp boundaryElements 24).2.2.2.1 tcaEntry24
      [tcaEntry70] tcaEntry24 rfl (by decide)
      (List.find?_cons_of_pos _ (by norm_num [tcaEntry24, distEps]))]
    rfl
  · rw [(c6_exact_and_boundary_clamp boundaryElements 10).2.2.2.2.1 tcaEntry24
      [tcaEntry70] rfl (by decide) hnoT (by norm_num [tcaEntry24])]
    rfl
  · rw [(c6_exact_and_boundary_clamp boundaryElements 100).2.2.2.2.2 tcaEntry24
      [tcaEntry70] rfl (by decide) hnoT2 (by norm_num [tcaEntry70])]
    rfl

/-- Claim C2: for a sorted distortion table and a query strictly between two
adjacent entries with no entry within 1e-5 of the query, equal model tags
and a span of at least 1e-5 give linear interpolation of each coefficient by
the fractional position, while differing model tags or a degenerate span
return the lower entry's coefficients verbatim. -/
theorem c2_distortion_interpolation (elements : List CalibrationElement)
    (f : ℚ) (pre post : List Distortion) (d1 d2 : Distortion)
    (hl : elements.filterMap asDistortion = pre ++ d1 :: d2 :: post)
    (hsort : (pre ++ d1 :: d2 :: post).Pairwise (fun a b => a.focal ≤ b.focal))
    (h1 : d1.focal < f) (h2 : f < d2.focal)
    (hno : ∀ d ∈ pre ++ d1 :: d2 :: post, distEps ≤ |d.focal - f|) :
    distPart elements f =
      (if (extract_dist_params d1).model = (extract_dist_params d2).model ∧
          distEps ≤ d2.focal - d1.focal then
        let p1 := extract_dist_params d1
        let p2 := extract_dist_params d2
        let t := (f - d1.focal) / (d2.focal - d1.focal)
        ⟨p1.k1 + t * (p2.k1 - p1.k1), p1.k2 + t * (p2.k2 - p1.k2),
         p1.k3 + t * (p2.k3 - p1.k3), p1.model⟩
      else extract_dist_params d1) := by
  have hs : List.insertionSort (fun a b => a.focal ≤ b.focal)
      (elements.filterMap asDistortion) = pre ++ d1 :: d2 :: post := by
    rw [hl]
    exact List.Sorted.insertionSort_eq hsort
  obtain ⟨d0, rest, hq⟩ : ∃ d0 rest, pre ++ d1 :: d2 :: post = d0 :: rest := by
    cases pre with
    | nil => exact ⟨d1, d2 :: post, rfl⟩
    | cons a l => exact ⟨a, l ++ d1 :: d2 :: post, rfl⟩
  have hsort2 : (d0 :: rest).Pairwise (fun a b => a.focal ≤ b.focal) :=
    hq ▸ hsort
  have hnone : (d0 :: rest).find?
      (fun d => decide (|d.focal - f| < distEps)) = none := by
    rw [List.find?_eq_none]
    intro x hx
    simp only [decide_eq_true_eq]
    exact not_lt.mpr (hno x (by rw [hq]; exact hx))
  have hd1mem : d1 ∈ d0 :: rest := by rw [← hq]; simp
  have hd2mem : d2 ∈ d0 :: rest := by rw [← hq]; simp
  have hd0le : d0.focal ≤ d1.focal := by
    rcases List.mem_cons.mp hd1mem with rfl | hmem
    · exact le_refl _
    · exact (List.pairwise_cons.mp hsort2).1 d1 hmem
  have hnlt : ¬ f < d0.focal :=
    not_lt.mpr (le_of_lt (lt_of_le_of_lt hd0le h1))
  have hlast : d2.focal ≤ (rest.getLastD d0).focal :=
    key_le_getLastD (fun d => d.focal) rest d0 hsort2 d2 hd2mem
  have hngt : ¬ (rest.getLastD d0).focal < f :=
    not_lt.mpr (le_of_lt (lt_of_lt_of_le h2 hlast))
  rw [distPart, hs, hq]
  dsimp only
  rw [hnone, if_neg hnlt, if_neg hngt, ← hq]
  have hrangepos : 0 < d2.focal - d1.focal := sub_pos.mpr (lt_trans h1 h2)
  have hstep : distPairStep f d1 d2 =
      some (if (extract_dist_params d1).model = (extract_dist_params d2).model ∧
          distEps ≤ d2.focal - d1.focal then
        let p1 := extract_dist_params d1
        let p2 := extract_dist_params d2
        let t := (f - d1.focal) / (d2.focal - d1.focal)
        ⟨p1.k1 + t * (p2.k1 - p1.k1), p1.k2 + t * (p2.k2 - p1.k2),
         p1.k3 + t * (p2.k3 - p1.k3), p1.model⟩
      else extract_dist_params d1) := by
    rw [distPairStep, if_pos ⟨le_of_lt h1, le_of_lt h2⟩]
    dsimp only
    rw [abs_of_pos hrangepos]
    by_cases hm : (extract_dist_params d1).model = (extract_dist_params d2).model
    · by_cases hr : distEps ≤ d2.focal - d1.focal
      · rw [if_neg (by push_neg; exact ⟨hr, hm⟩), if_pos ⟨hm, hr⟩]
      · rw [if_pos (Or.inl (not_le.mp hr)), if_neg (fun hc => hr hc.2)]
    · rw [if_pos (Or.inr hm), if_neg (fun hc => hm hc.1)]
  have hchain : List.Chain' (fun a b => distPairStep f a b = none)
      (pre ++ [d1]) := by
    apply List.Pairwise.chain'
    apply List.pairwise_of_forall_mem_list
    intro a _ b hb
    have hbf : b.focal ≤ d1.focal := by
      rcases List.mem_append.mp hb with hbpre | hbd
      · exact (List.pairwise_append.mp hsort).2.2 b hbpre d1 (by simp)
      · rcases List.mem_singleton.mp hbd with rfl
        exact le_refl _
    have hnc : ¬ (a.focal ≤ f ∧ f ≤ b.focal) := fun hc =>
      absurd hc.2 (not_le.mpr (lt_of_le_of_lt hbf h1))
    rw [distPairStep, if_neg hnc]
  exact scanAdjPairs_append (distPairStep f) ⟨0, 0, 0, 0⟩ _ pre d1 d2 post
    hchain hstep

/-- Witness for C2: the spec scenario table (24mm k1 = 0.1, 70mm k1 = 0.3)
queried at 47mm yields k1 = 0.2. -/
theorem c2_distortion_interpolation_witness :
    (distPart exampleElements 47).k1 = 1 / 5 := by
  have h := c2_distortion_interpolation exampleElements 47 [] []
    distEntry24 distEntry70 rfl (by decide)
    (by norm_num [distEntry24]) (by norm_num [distEntry70])
    (by norm_num [List.forall_mem_cons, distEntry24, distEntry70, distEps, le_abs])
  rw [h, if_pos]
  · norm_num [extract_dist_params, distEntry24, distEntry70]
  · constructor
    · norm_num [extract_dist_params, distEntry24, distEntry70]
    · norm_num [distEntry24, distEntry70, distEps]

/-- find_best_vig selects, among the given entries, the unique aperture-wise
closest entry and then the unique distance-wise closest entry among those
within 0.01 of that aperture. -/
theorem find_best_vig_eq_of_unique (items : List Vignetting) (ta td : ℚ)
    (e ed : Vignetting) (he : e ∈ items)
    (hmin : ∀ x ∈ items, x ≠ e → |e.aperture - ta| < |x.aperture - ta|)
    (hed : ed ∈ items.filter (fun x => decide (|x.aperture - e.aperture| < vigEps)))
    (hmind : ∀ x ∈ items.filter
        (fun x => decide (|x.aperture - e.aperture| < vigEps)),
      x ≠ ed → |ed.distance.getD 1000 - td| < |x.distance.getD 1000 - td|) :
    find_best_vig ta td items = extract_vig_params ed := by
  have ha := minByFirst_eq_of_strict (fun a : Vignetting => |a.aperture - ta|)
    items e he (fun x hx hne => hmin x hx hne)
  have hb := minByFirst_eq_of_strict
    (fun a : Vignetting => |a.distance.getD 1000 - td|)
    (items.filter (fun x => decide (|x.aperture - e.aperture| < vigEps)))
    ed hed (fun x hx hne => hmind x hx hne)
  rw [find_best_vig, ha]
  dsimp only
  rw [hb]

set_option maxHeartbeats 1600000 in
/-- Claim C8: vignetting resolution defaults aperture to 3.5 and distance to
1000 when absent; within each bracketing focal group the entry with the
numerically closest aperture is selected, then among entries sharing that
aperture the entry with the closest focus distance; the two per-group best
matches are linearly interpolated across focal length. -/
theorem c8_vignetting_two_stage (elements : List CalibrationElement) (f : ℚ)
    (ap dst : Option ℚ) (pre post : List Vignetting) (v1 v2 v0 : Vignetting)
    (rest : List Vignetting)
    (hl : elements.filterMap asVignetting = pre ++ v1 :: v2 :: post)
    (hsort : (pre ++ v1 :: v2 :: post).Pairwise (fun a b => a.focal ≤ b.focal))
    (hcons : pre ++ v1 :: v2 :: post = v0 :: rest)
    (hlow : v0.focal + vigEps < f)
    (hhigh : f < (rest.getLastD v0).focal - vigEps)
    (h1 : v1.focal < f) (h2 : f < v2.focal)
    (hr : vigEps < v2.focal - v1.focal) :
    (vigPart elements f ap dst =
      (let ta := ap.getD (7 / 2)
       let td := dst.getD 1000
       let all := pre ++ v1 :: v2 :: post
       let p1 := find_best_vig ta td
         (all.filter (fun x => decide (|x.focal - v1.focal| < vigEps)))
       let p2 := find_best_vig ta td
         (all.filter (fun x => decide (|x.focal - v2.focal| < vigEps)))
       let t := (f - v1.focal) / (v2.focal - v1.focal)
       (p1.1 + t * (p2.1 - p1.1), p1.2.1 + t * (p2.2.1 - p1.2.1),
        p1.2.2 + t * (p2.2.2 - p1.2.2)))) ∧
    (∀ (items : List Vignetting) (ta td : ℚ) (e ed : Vignetting),
      e ∈ items →
      (∀ x ∈ items, x ≠ e → |e.aperture - ta| < |x.aperture - ta|) →
      ed ∈ items.filter (fun x => decide (|x.aperture - e.aperture| < vigEps)) →
      (∀ x ∈ items.filter
          (fun x => decide (|x.aperture - e.aperture| < vigEps)),
        x ≠ ed → |ed.distance.getD 1000 - td| < |x.distance.getD 1000 - td|) →
      find_best_vig ta td items = extract_vig_params ed) ∧
    (∀ (es : List CalibrationElement) (g : ℚ),
      vigPart es g none none = vigPart es g (some (7 / 2)) (some 1000)) := by
  refine ⟨?_, ?_, ?_⟩
  · have hs : List.insertionSort (fun a b => a.focal ≤ b.focal)
        (elements.filterMap asVignetting) = pre ++ v1 :: v2 :: post := by
      rw [hl]
      exact List.Sorted.insertionSort_eq hsort
    have hnb1 : ¬ (f ≤ v0.focal + vigEps) := not_le.mpr hlow
    have hnb2 : ¬ ((rest.getLastD v0).focal - vigEps ≤ f) := not_le.mpr hhigh
    rw [vigPart, hs, hcons]
    dsimp only
    rw [if_neg hnb1, if_neg hnb2, ← hcons]
    apply scanAdjPairs_append (vigPairStep (ap.getD (7 / 2)) (dst.getD 1000) f
      (pre ++ v1 :: v2 :: post)) (0, 0, 0) _ pre v1 v2 post
    · apply List.Pairwise.chain'
      apply List.pairwise_of_forall_mem_list
      intro a _ b hb
      have hbf : b.focal ≤ v1.focal := by
        rcases List.mem_append.mp hb with hbpre | hbd
        · exact (List.pairwise_append.mp hsort).2.2 b hbpre v1 (by simp)
        · rcases List.mem_singleton.mp hbd with rfl
          exact le_refl _
      by_cases hce : |a.focal - b.focal| < vigEps
      · rw [vigPairStep, if_pos hce]
      · rw [vigPairStep, if_neg hce, if_neg (fun hc =>
          absurd hc.2 (not_le.mpr (lt_of_le_of_lt hbf h1)))]
    · have habs : |v1.focal - v2.focal| = v2.focal - v1.focal := by
        rw [abs_sub_comm]
        exact abs_of_pos (by linarith)
      rw [vigPairStep, habs, if_neg (not_lt.mpr (le_of_lt hr)),
        if_pos ⟨le_of_lt h1, le_of_lt h2⟩]
      dsimp only
      rw [abs_of_pos (by linarith), if_pos hr]
  · exact fun items ta td e ed he hmin hed hmind =>
      find_best_vig_eq_of_unique items ta td e ed he hmin hed hmind
  · intro es g
    rw [vigPart, vigPart]
    rcases List.insertionSort (fun a b => a.focal ≤ b.focal)
        (es.filterMap asVignetting) with _ | ⟨w0, wrest⟩
    · rfl
    · rfl

/-- Witness for C8: a two-group vignetting table at 28mm and 50mm queried at
39mm with default aperture and distance interpolates k1 from 0.2 and 0.4 to
0.3. -/
theorem c8_vignetting_two_stage_witness :
    vigPart vigElements 39 none none = (3 / 10, 0, 0) := by
  have h := (c8_vignetting_two_stage vigElements 39 none none [] []
    vigEntry28 vigEntry50 vigEntry28 [vigEntry50] rfl (by decide) rfl
    (by norm_num [vigEntry28, vigEps])
    (by norm_num [List.getLastD, vigEntry50, vigEps])
    (by norm_num [vigEntry28]) (by norm_num [vigEntry50])
    (by norm_num [vigEntry28, vigEntry50, vigEps])).1
  rw [h]
  norm_num [find_best_vig, minByFirst, extract_vig_params, List.filter,
    vigEntry28, vigEntry50, vigEps, abs_sub_lt_iff]

end LensCorrection


namespace Chroma

/-- Claim C5 (amended): the filter carries the input pixel's luma through to
reconstruction unchanged and touches only chroma, so the recomputed luma of
the output equals the input luma plus the fixed RGB-to-YCbCr round-trip
residue 0.000000168 times the sum of the output chroma components — exact
luma equality holds only when that sum vanishes. -/
theorem c5_luma_roundtrip_residue (img : ImageRGB) (x y : ℕ) :
    lumaOf ((remove_raw_artifacts_and_enhance img).pix x y) =
      lumaOf (img.pix x y) +
        (21 / 125000000) *
          ((denoiseChroma img x y).1 + (denoiseChroma img x y).2) := by
  simp only [remove_raw_artifacts_and_enhance, lumaOf, yc_to_rgb, ycAt,
    rgb_to_yc_only]
  ring

/-- Counterexample for C5 as stated: on a 1x1 pure red image the output luma
differs from the input luma. -/
theorem c5_luma_changes_counterexample :
    lumaOf ((remove_raw_artifacts_and_enhance redPixelImage).pix 0 0) ≠
      lumaOf (redPixelImage.pix 0 0) := by
  norm_num [lumaOf, remove_raw_artifacts_and_enhance, yc_to_rgb,
    denoiseChroma, neighborSums, offsetPairs, ycAt, rgb_to_yc_only,
    redPixelImage, List.foldl]

/-- Claim C4 (amended): for every pixel whose original squared chroma
magnitude exceeds 1e-12, the filtered chroma magnitude never exceeds the
original chroma magnitude; pixels at or below that threshold skip the
anti-amplification clamp and may gain chroma. -/
theorem c4_chroma_clamp_above_threshold (img : ImageRGB) (x y : ℕ)
    (h : 1 / 1000000000000 <
      (ycAt img x y).2.1 * (ycAt img x y).2.1 +
      (ycAt img x y).2.2 * (ycAt img x y).2.2) :
    Real.sqrt (chromaMagSq (denoiseChroma img x y)) ≤
      Real.sqrt (chromaMagSq ((ycAt img x y).2.1, (ycAt img x y).2.2)) := by
  apply Real.sqrt_le_sqrt
  simp only [denoiseChroma, chromaMagSq]
  split_ifs with h1 h2
  · set s := neighborSums img (ycAt img x y).1 x y with hs
    set fcb := s.1 / s.2.2 with hfcb
    set fcr := s.2.1 / s.2.2 with hfcr
    set omag := (ycAt img x y).2.1 * (ycAt img x y).2.1 +
      (ycAt img x y).2.2 * (ycAt img x y).2.2 with homag
    set fmag := fcb * fcb + fcr * fcr with hfmag
    have hfm0 : 0 < fmag := lt_trans (lt_trans (by norm_num) h) h2.1
    have hsc : Real.sqrt (omag / fmag) * Real.sqrt (omag / fmag) =
        omag / fmag :=
      Real.mul_self_sqrt (div_nonneg (le_of_lt (lt_trans (by norm_num) h))
        (le_of_lt hfm0))
    calc fcb * Real.sqrt (omag / fmag) * (fcb * Real.sqrt (omag / fmag)) +
        fcr * Real.sqrt (omag / fmag) * (fcr * Real.sqrt (omag / fmag))
        = (fcb * fcb + fcr * fcr) *
            (Real.sqrt (omag / fmag) * Real.sqrt (omag / fmag)) := by ring
      _ = fmag * (omag / fmag) := by rw [hsc]
      _ = omag := mul_div_cancel₀ _ (ne_of_gt hfm0)
      _ ≤ omag := le_refl _
  · set s := neighborSums img (ycAt img x y).1 x y with hs
    have hnlt : ¬ ((ycAt img x y).2.1 * (ycAt img x y).2.1 +
        (ycAt img x y).2.2 * (ycAt img x y).2.2 <
        s.1 / s.2.2 * (s.1 / s.2.2) + s.2.1 / s.2.2 * (s.2.1 / s.2.2)) :=
      fun hf => h2 ⟨hf, h⟩
    exact not_lt.mp hnlt
  · exact le_refl _

/-- Witness for C4 on the 1x1 red image, whose chroma is far above the
threshold. -/
theorem c4_chroma_clamp_above_threshold_witness :
    (1 / 1000000000000 : ℝ) <
      (ycAt redPixelImage 0 0).2.1 * (ycAt redPixelImage 0 0).2.1 +
      (ycAt redPixelImage 0 0).2.2 * (ycAt redPixelImage 0 0).2.2 ∧
    Real.sqrt (chromaMagSq (denoiseChroma redPixelImage 0 0)) ≤
      Real.sqrt (chromaMagSq ((ycAt redPixelImage 0 0).2.1,
        (ycAt redPixelImage 0 0).2.2)) :=
  ⟨by norm_num [ycAt, rgb_to_yc_only, redPixelImage],
   c4_chroma_clamp_above_threshold redPixelImage 0 0
     (by norm_num [ycAt, rgb_to_yc_only, redPixelImage])⟩

/-- Counterexample for C4 as stated: in the cross-talk image the gray pixel
at (0, 0) has zero chroma but its filtered chroma, taken from the colored
neighbor at (3, 3), has strictly larger magnitude — the filter increased
saturation. -/
theorem c4_chroma_gain_counterexample :
    Real.sqrt (chromaMagSq ((ycAt crossTalkImage 0 0).2.1,
        (ycAt crossTalkImage 0 0).2.2)) <
      Real.sqrt (chromaMagSq (denoiseChroma crossTalkImage 0 0)) := by
  have h0 : chromaMagSq ((ycAt crossTalkImage 0 0).2.1,
      (ycAt crossTalkImage 0 0).2.2) = 0 := by
    norm_num [chromaMagSq, ycAt, rgb_to_yc_only, crossTalkImage]
  rw [h0, Real.sqrt_zero]
  rw [Real.sqrt_pos]
  have htn : Int.toNat 3 = 3 := rfl
  norm_num [chromaMagSq, denoiseChroma, neighborSums, offsetPairs, ycAt,
    rgb_to_yc_only, crossTalkImage, List.foldl, htn]

end Chroma
